import Mathlib

/-!
# rcar-mem-fb: memory framebuffer driver and its colour-bar test program

A shallow embedding of

* `drivers/gpu/drm/rcar-du/rcar_mem_fb.c` (the platform driver), and
* `fb_test.c` (the userspace colour-bar test),

followed by the properties established about them.

Conventions of the embedding.

* `__u32` / `unsigned int` values are `Nat`, reduced `% 2^32` wherever the C
  operation can wrap.
* `int` values are `Int`, reduced into the 32-bit two's complement range
  wherever the C operation can leave it, as the compiled 32-bit arithmetic
  does.  A shift takes its count modulo 32, as the shift instructions of
  x86-64 and AArch64 do.
* An integer division by zero traps: the operation returns `none`, and so
  does everything that runs after it.
* Kernel and libc entry points that the two files call but do not define are
  the environment.  Their outcomes are inputs of the embedding, and the calls
  themselves are recorded in a log.
-/

namespace RcarFb

/-! ## Types of `linux/fb.h` used by both files -/

/-- The `struct fb_bitfield` of `linux/fb.h`. -/
structure fb_bitfield where
  offset : Nat
  length : Nat
  msb_right : Nat
deriving DecidableEq

/-- The `struct fb_var_screeninfo` of `linux/fb.h`; every member is a `__u32`
(`reserved` is an array of four). -/
structure fb_var_screeninfo where
  xres : Nat
  yres : Nat
  xres_virtual : Nat
  yres_virtual : Nat
  xoffset : Nat
  yoffset : Nat
  bits_per_pixel : Nat
  grayscale : Nat
  red : fb_bitfield
  green : fb_bitfield
  blue : fb_bitfield
  transp : fb_bitfield
  nonstd : Nat
  activate : Nat
  height : Nat
  width : Nat
  accel_flags : Nat
  pixclock : Nat
  left_margin : Nat
  right_margin : Nat
  upper_margin : Nat
  lower_margin : Nat
  hsync_len : Nat
  vsync_len : Nat
  sync : Nat
  vmode : Nat
  rotate : Nat
  colorspace : Nat
  reserved : List Nat
deriving DecidableEq

/-- The members of `struct fb_fix_screeninfo` that the driver sets. -/
structure fb_fix_screeninfo where
  id : String
  smem_start : Nat
  smem_len : Nat
  type : Nat
  visual : Nat
  xpanstep : Nat
  ypanstep : Nat
  ywrapstep : Nat
  line_length : Nat
  accel : Nat
deriving DecidableEq

/-- A zero-initialised `fb_bitfield`. -/
def fb_bitfield.zero : fb_bitfield := ⟨0, 0, 0⟩

/-- A zero-initialised `fb_var_screeninfo`, the starting point of a C
designated initialiser. -/
def fb_var_screeninfo.zero : fb_var_screeninfo :=
  { xres := 0, yres := 0, xres_virtual := 0, yres_virtual := 0, xoffset := 0, yoffset := 0,
    bits_per_pixel := 0, grayscale := 0,
    red := fb_bitfield.zero, green := fb_bitfield.zero, blue := fb_bitfield.zero,
    transp := fb_bitfield.zero,
    nonstd := 0, activate := 0, height := 0, width := 0, accel_flags := 0, pixclock := 0,
    left_margin := 0, right_margin := 0, upper_margin := 0, lower_margin := 0,
    hsync_len := 0, vsync_len := 0, sync := 0, vmode := 0, rotate := 0, colorspace := 0,
    reserved := [0, 0, 0, 0] }

/-! ## Constants of the kernel headers -/

def EINVAL : Int := 22
def EBUSY : Int := 16
def ENOMEM : Int := 12

def FB_TYPE_PACKED_PIXELS : Nat := 0
def FB_VISUAL_TRUECOLOR : Nat := 2
def FB_ACCEL_NONE : Nat := 0
def FB_ACTIVATE_NOW : Nat := 0
def FB_VMODE_NONINTERLACED : Nat := 0

/-! ## The driver, `rcar_mem_fb.c` -/

def RCAR_MEM_FB_WIDTH : Nat := 480
def RCAR_MEM_FB_HEIGHT : Nat := 272
def RCAR_MEM_FB_BPP : Nat := 24
def RCAR_MEM_FB_START : Nat := 0x58000000

/-- The constant `(RCAR_MEM_FB_WIDTH * RCAR_MEM_FB_HEIGHT * RCAR_MEM_FB_BPP/8)`:
the products are formed left to right and the division comes last. -/
def RCAR_MEM_FB_SIZE : Nat :=
  RCAR_MEM_FB_WIDTH * RCAR_MEM_FB_HEIGHT * RCAR_MEM_FB_BPP / 8

/-- The static `rcar_mem_fb_fix`. -/
def rcar_mem_fb_fix : fb_fix_screeninfo :=
  { id := "rcar-mem-fb",
    smem_start := 0,
    smem_len := 0,
    type := FB_TYPE_PACKED_PIXELS,
    visual := FB_VISUAL_TRUECOLOR,
    xpanstep := 0,
    ypanstep := 0,
    ywrapstep := 0,
    line_length := RCAR_MEM_FB_WIDTH * 3,
    accel := FB_ACCEL_NONE }

/-- The static `rcar_mem_fb_var`; `.height = -1` and `.width = -1` are stored
in `__u32` members. -/
def rcar_mem_fb_var : fb_var_screeninfo :=
  { fb_var_screeninfo.zero with
    xres := RCAR_MEM_FB_WIDTH,
    yres := RCAR_MEM_FB_HEIGHT,
    xres_virtual := RCAR_MEM_FB_WIDTH,
    yres_virtual := RCAR_MEM_FB_HEIGHT,
    bits_per_pixel := RCAR_MEM_FB_BPP,
    red := ⟨16, 8, 0⟩,
    green := ⟨8, 8, 0⟩,
    blue := ⟨0, 8, 0⟩,
    activate := FB_ACTIVATE_NOW,
    height := 2 ^ 32 - 1,
    width := 2 ^ 32 - 1,
    vmode := FB_VMODE_NONINTERLACED }

/-- The function `rcar_mem_fb_check_var`; the `info` argument is not read. -/
def rcar_mem_fb_check_var (var : fb_var_screeninfo) : Int :=
  if var.xres ≠ RCAR_MEM_FB_WIDTH ∨ var.yres ≠ RCAR_MEM_FB_HEIGHT ∨
      var.bits_per_pixel ≠ RCAR_MEM_FB_BPP then
    -EINVAL
  else
    0

/-- The kernel calls made by `probe` and `remove`, with the arguments that
matter. -/
inductive KCall where
  | request_mem_region (start n : Nat)
  | framebuffer_alloc (size : Nat)
  | memremap (offset size : Nat)
  | memset_io (c count : Nat)
  | register_framebuffer
  | platform_set_drvdata
  | platform_get_drvdata
  | unregister_framebuffer
  | memunmap
  | iounmap
  | framebuffer_release
  | release_mem_region (start n : Nat)
deriving DecidableEq

/-- The resources the driver acquires: whether the physical window at
`RCAR_MEM_FB_START` is reserved, and how many `fb_info` objects, mappings of
the window and registered framebuffers are live. -/
structure Resources where
  mem_region : Bool
  fb_infos : Nat
  mappings : Nat
  registered : Nat
deriving DecidableEq

/-- The kernel as the driver sees it: the resources and the log of calls. -/
structure Kernel where
  res : Resources
  log : List KCall
deriving DecidableEq

/-- The `fix` and `var` members of `struct fb_info`, as `probe` fills them in
(`fbops`, `flags` and `screen_base` are not modelled). -/
structure fb_info where
  fix : fb_fix_screeninfo
  var : fb_var_screeninfo
deriving DecidableEq

/-- The outcomes of the four fallible kernel calls of `probe`:
`register_framebuffer` returns an `int`, the other three a pointer that is
null on failure. -/
structure ProbeEnv where
  request_ok : Bool
  alloc_ok : Bool
  remap_ok : Bool
  register_ret : Int
deriving DecidableEq

/-- Kernel `request_mem_region`: reserves the window unless it is already
reserved or the call fails for another reason; the result tells whether a
non-null resource was returned. -/
def request_mem_region (k : Kernel) (start n : Nat) (ok : Bool) : Bool × Kernel :=
  let log := k.log ++ [KCall.request_mem_region start n]
  if ok && !k.res.mem_region then
    (true, { res := { k.res with mem_region := true }, log := log })
  else
    (false, { k with log := log })

/-- Kernel `release_mem_region`. -/
def release_mem_region (k : Kernel) (start n : Nat) : Kernel :=
  { res := { k.res with mem_region := false },
    log := k.log ++ [KCall.release_mem_region start n] }

/-- Kernel `framebuffer_alloc`. -/
def framebuffer_alloc (k : Kernel) (size : Nat) (ok : Bool) : Bool × Kernel :=
  let log := k.log ++ [KCall.framebuffer_alloc size]
  if ok then
    (true, { res := { k.res with fb_infos := k.res.fb_infos + 1 }, log := log })
  else
    (false, { k with log := log })

/-- Kernel `framebuffer_release`. -/
def framebuffer_release (k : Kernel) : Kernel :=
  { res := { k.res with fb_infos := k.res.fb_infos - 1 },
    log := k.log ++ [KCall.framebuffer_release] }

/-- Kernel `memremap` (the flag is always `MEMREMAP_WB`). -/
def memremap (k : Kernel) (offset size : Nat) (ok : Bool) : Bool × Kernel :=
  let log := k.log ++ [KCall.memremap offset size]
  if ok then
    (true, { res := { k.res with mappings := k.res.mappings + 1 }, log := log })
  else
    (false, { k with log := log })

/-- Kernel `memunmap`, the inverse of `memremap`. -/
def memunmap (k : Kernel) : Kernel :=
  { res := { k.res with mappings := k.res.mappings - 1 },
    log := k.log ++ [KCall.memunmap] }

/-- Kernel `iounmap`, the inverse of `ioremap`.  Whether it also takes down a
mapping made by `memremap` depends on the platform; `undoes` says so. -/
def iounmap (k : Kernel) (undoes : Bool) : Kernel :=
  { res := if undoes then { k.res with mappings := k.res.mappings - 1 } else k.res,
    log := k.log ++ [KCall.iounmap] }

/-- Kernel `memset_io`: no effect on the resources. -/
def memset_io (k : Kernel) (c count : Nat) : Kernel :=
  { k with log := k.log ++ [KCall.memset_io c count] }

/-- Kernel `register_framebuffer`: returns `ret`; the framebuffer is
registered unless `ret` is negative. -/
def register_framebuffer (k : Kernel) (ret : Int) : Int × Kernel :=
  let log := k.log ++ [KCall.register_framebuffer]
  if ret < 0 then
    (ret, { k with log := log })
  else
    (ret, { res := { k.res with registered := k.res.registered + 1 }, log := log })

/-- Kernel `unregister_framebuffer`. -/
def unregister_framebuffer (k : Kernel) : Kernel :=
  { res := { k.res with registered := k.res.registered - 1 },
    log := k.log ++ [KCall.unregister_framebuffer] }

/-- Kernel `platform_set_drvdata`. -/
def platform_set_drvdata (k : Kernel) : Kernel :=
  { k with log := k.log ++ [KCall.platform_set_drvdata] }

/-- Kernel `platform_get_drvdata`. -/
def platform_get_drvdata (k : Kernel) : Kernel :=
  { k with log := k.log ++ [KCall.platform_get_drvdata] }

/-- What `rcar_mem_fb_probe` leaves behind: its return value, the kernel
afterwards, and the `fb_info` it filled in if it got that far. -/
structure ProbeResult where
  ret : Int
  kernel : Kernel
  info : Option fb_info
deriving DecidableEq

/-- The label `err_release_mem_region` of `rcar_mem_fb_probe`. -/
def err_release_mem_region (k : Kernel) (ret : Int) (info : Option fb_info) : ProbeResult :=
  { ret := ret,
    kernel := release_mem_region k RCAR_MEM_FB_START RCAR_MEM_FB_SIZE,
    info := info }

/-- The label `err_release_fb`, falling through to `err_release_mem_region`. -/
def err_release_fb (k : Kernel) (ret : Int) (info : Option fb_info) : ProbeResult :=
  err_release_mem_region (framebuffer_release k) ret info

/-- The label `err_unmap`, falling through to `err_release_fb`. -/
def err_unmap (k : Kernel) (ret : Int) (info : Option fb_info) : ProbeResult :=
  err_release_fb (memunmap k) ret info

/-- The function `rcar_mem_fb_probe` (the `dev_err` and `dev_info` messages are
left out). -/
def rcar_mem_fb_probe (env : ProbeEnv) (k : Kernel) : ProbeResult :=
  match request_mem_region k RCAR_MEM_FB_START RCAR_MEM_FB_SIZE env.request_ok with
  | (false, k1) => { ret := -EBUSY, kernel := k1, info := none }
  | (true, k1) =>
    match framebuffer_alloc k1 0 env.alloc_ok with
    | (false, k2) => err_release_mem_region k2 (-ENOMEM) none
    | (true, k2) =>
      let info : fb_info :=
        { fix := { rcar_mem_fb_fix with
                   smem_start := RCAR_MEM_FB_START,
                   smem_len := RCAR_MEM_FB_SIZE },
          var := rcar_mem_fb_var }
      match memremap k2 RCAR_MEM_FB_START RCAR_MEM_FB_SIZE env.remap_ok with
      | (false, k3) => err_release_fb k3 (-ENOMEM) (some info)
      | (true, k3) =>
        let k4 := memset_io k3 0 info.fix.smem_len
        match register_framebuffer k4 env.register_ret with
        | (ret, k5) =>
          if ret < 0 then
            err_unmap k5 ret (some info)
          else
            { ret := 0, kernel := platform_set_drvdata k5, info := some info }

/-- The function `rcar_mem_fb_remove`; it returns 0. -/
def rcar_mem_fb_remove (undoes : Bool) (k : Kernel) : Int × Kernel :=
  let k1 := platform_get_drvdata k
  let k2 := unregister_framebuffer k1
  let k3 := iounmap k2 undoes
  let k4 := framebuffer_release k3
  (0, k4)

/-! ## The test program, `fb_test.c` -/

/-- The array `colors`; each entry is an `unsigned int`. -/
def colors : List Nat :=
  [ 0xFF0000FF,   -- Red
    0xFF00FF00,   -- Green
    0xFFFF0000,   -- Blue
    0xFFFFFF00,   -- Yellow
    0xFFFF00FF,   -- Magenta
    0xFF00FFFF,   -- Cyan
    0xFFFFFFFF ]  -- White

/-- The constant `NUM_BARS`, `sizeof(colors) / sizeof(colors[0])`, of type
`size_t`. -/
def NUM_BARS : Nat := colors.length

def INT_MAX : Int := 2 ^ 31 - 1
def INT_MIN : Int := -(2 ^ 31)

def EXIT_SUCCESS : Int := 0
def EXIT_FAILURE : Int := 1

/-- The 32-bit two's complement value of an `int` operation whose mathematical
result is `v`. -/
def wrap_int (v : Int) : Int := (v + 2 ^ 31) % 2 ^ 32 - 2 ^ 31

/-- Conversion of an unsigned value to `int` (reduction modulo `2^32` into the
signed range). -/
def to_int (n : Nat) : Int :=
  if n % 2 ^ 32 < 2 ^ 31 then ((n % 2 ^ 32 : Nat) : Int) else ((n % 2 ^ 32 : Nat) : Int) - 2 ^ 32

/-- Conversion of an `int` to the 64-bit `size_t` of an LP64 target. -/
def to_size_t (v : Int) : Nat := (v % 2 ^ 64).toNat

/-- Lines 26, 30 and 31 of `draw_colorbars`: the bar index of column `x`.
`width / NUM_BARS` and `bar_index >= NUM_BARS` are evaluated in `size_t`;
`x / bar_width` is an `int` division, which traps for a zero divisor. -/
def bar_index (width x : Int) : Option Int :=
  let bar_width : Int := to_int (to_size_t width / NUM_BARS)
  if bar_width = 0 then
    none
  else
    let bar_index : Int := wrap_int (x.tdiv bar_width)
    if NUM_BARS ≤ to_size_t bar_index then some (to_int (NUM_BARS - 1)) else some bar_index

/-- Line 33 of `draw_colorbars`: `colors[bar_index]`. -/
def bar_color (width x : Int) : Option Nat :=
  match bar_index width x with
  | none => none
  | some i => if 0 ≤ i then colors[i.toNat]? else none

/-- Line 34 of `draw_colorbars`: `(x + y * width) * bytesPerPixel` in `int`. -/
def pixel_offset (width bytesPerPixel x y : Int) : Int :=
  wrap_int (wrap_int (x + wrap_int (y * width)) * bytesPerPixel)

/-- The shift `v << n` of an `unsigned int` by a `__u32` count. -/
def shl32 (v n : Nat) : Nat :=
  (v <<< (n % 32)) % 2 ^ 32

/-- Lines 37 to 49 of `draw_colorbars`: the pixel word for a colour. -/
def pack_pixel (color : Nat) (vinfo : fb_var_screeninfo) : Nat :=
  let r := (color >>> 16) &&& 0xFF
  let g := (color >>> 8) &&& 0xFF
  let b := color &&& 0xFF
  let a := (color >>> 24) &&& 0xFF
  let pixel := 0
  let pixel := pixel ||| shl32 r vinfo.red.offset
  let pixel := pixel ||| shl32 g vinfo.green.offset
  let pixel := pixel ||| shl32 b vinfo.blue.offset
  if vinfo.transp.length > 0 then
    pixel ||| shl32 a vinfo.transp.offset
  else
    pixel

/-- A store of one byte: the offset from `fbp`, and the value, which is `none`
when the byte copied is not one of `pixel`. -/
abbrev Store := Int × Option Nat

/-- Byte `i` of the object `pixel` on a little-endian target; past the four
bytes of `pixel` the copy reads whatever follows it in memory. -/
def pixel_byte (pixel i : Nat) : Option Nat :=
  if i < 4 then some ((pixel >>> (8 * i)) &&& 0xFF) else none

/-- Line 52 of `draw_colorbars`: `memcpy(fbp + offset, &pixel, n)`. -/
def memcpy_pixel (offset : Int) (pixel n : Nat) : List Store :=
  (List.range n).map fun (i : Nat) => (offset + (i : Int), pixel_byte pixel i)

/-- Line 25 of `draw_colorbars`: `int bytesPerPixel = vinfo->bits_per_pixel / 8`. -/
def bytesPerPixel (vinfo : fb_var_screeninfo) : Int :=
  to_int (vinfo.bits_per_pixel / 8)

/-- The body of the inner loop of `draw_colorbars`, lines 30 to 52; the length
of the copy is `bytesPerPixel` converted to `size_t`. -/
def draw_pixel (width : Int) (vinfo : fb_var_screeninfo) (y x : Int) : Option (List Store) :=
  match bar_color width x with
  | none => none
  | some color =>
    let offset := pixel_offset width (bytesPerPixel vinfo) x y
    let pixel := pack_pixel color vinfo
    some (memcpy_pixel offset pixel (to_size_t (bytesPerPixel vinfo)))

/-- A loop `for (int i = 0; i < n; i++) body(i)`, collecting the stores of the
iterations in order; it ends as soon as an iteration traps. -/
def for_loop (body : Int → Option (List Store)) : Nat → Option (List Store)
  | 0 => some []
  | n + 1 =>
    match for_loop body n with
    | none => none
    | some before =>
      match body (n : Int) with
      | none => none
      | some now => some (before ++ now)

/-- The function `draw_colorbars`: the stores it makes through `fbp`, in
order, or `none` when it traps. -/
def draw_colorbars (width height : Int) (vinfo : fb_var_screeninfo) : Option (List Store) :=
  for_loop (fun y => for_loop (fun x => draw_pixel width vinfo y x) width.toNat) height.toNat

/-- The system and library calls of `main` that matter, with their
arguments. -/
inductive Sys where
  | open_fb0
  | ioctl_get_vscreeninfo
  | ioctl_get_fscreeninfo
  | ioctl_put_vscreeninfo (request : fb_var_screeninfo)
  | mmap (length : Nat)
  | getchar
  | munmap (length : Nat)
  | close
  | perror (msg : String)
deriving DecidableEq

/-- The outcomes of the calls of `main`: the value `open` returns, the value
each `ioctl` returns together with what it leaves in the structure it was
given, and whether `mmap` of a given length succeeds. -/
structure MainEnv where
  open_ret : Int
  get_v_ret : Int
  get_v_out : fb_var_screeninfo
  get_f_ret : Int
  put_v_first : fb_var_screeninfo → Int × fb_var_screeninfo
  put_v_second : fb_var_screeninfo → Int × fb_var_screeninfo
  mmap_ok : Nat → Bool

/-- What a run of `main` does: the calls it makes, and its return value
(`none` when the run ends in a trap). -/
structure MainResult where
  ret : Option Int
  trace : List Sys
deriving DecidableEq

/-- Line 124 of `main`: `vinfo.xres * vinfo.yres * vinfo.bits_per_pixel / 8`
in `__u32` arithmetic. -/
def screensize (vinfo : fb_var_screeninfo) : Nat :=
  ((vinfo.xres * vinfo.yres) % 2 ^ 32 * vinfo.bits_per_pixel) % 2 ^ 32 / 8

/-- Lines 120 to 143 of `main`, after the mode has been set; `trace` holds the
calls made so far. -/
def main_map_and_draw (env : MainEnv) (trace : List Sys) (vinfo : fb_var_screeninfo) :
    MainResult :=
  let screensize := screensize vinfo
  if !env.mmap_ok screensize then
    { ret := some EXIT_FAILURE,
      trace := trace ++ [Sys.mmap screensize,
                         Sys.perror "Error mapping framebuffer to memory", Sys.close] }
  else
    match draw_colorbars (to_int vinfo.xres) (to_int vinfo.yres) vinfo with
    | none => { ret := none, trace := trace ++ [Sys.mmap screensize] }
    | some _ =>
      { ret := some EXIT_SUCCESS,
        trace := trace ++ [Sys.mmap screensize, Sys.getchar, Sys.munmap screensize,
                           Sys.close] }

/-- The function `main` of `fb_test.c` (the `printf` calls are left out). -/
def main (env : MainEnv) : MainResult :=
  let target_width : Nat := 480
  let target_height : Nat := 272
  if env.open_ret = -1 then
    { ret := some EXIT_FAILURE,
      trace := [Sys.open_fb0, Sys.perror "Error opening /dev/fb0"] }
  else if env.get_v_ret ≠ 0 then
    { ret := some EXIT_FAILURE,
      trace := [Sys.open_fb0, Sys.ioctl_get_vscreeninfo,
                Sys.perror "Error reading variable screen info", Sys.close] }
  else if env.get_f_ret ≠ 0 then
    { ret := some EXIT_FAILURE,
      trace := [Sys.open_fb0, Sys.ioctl_get_vscreeninfo, Sys.ioctl_get_fscreeninfo,
                Sys.perror "Error reading fixed screen info", Sys.close] }
  else
    let vinfo := env.get_v_out
    let orig_vinfo := vinfo
    let vinfo := { vinfo with
                   xres := target_width, yres := target_height,
                   xres_virtual := target_width, yres_virtual := target_height }
    let trace := [Sys.open_fb0, Sys.ioctl_get_vscreeninfo, Sys.ioctl_get_fscreeninfo,
                  Sys.ioctl_put_vscreeninfo vinfo]
    match env.put_v_first vinfo with
    | (ret1, vinfo) =>
      if ret1 ≠ 0 then
        let trace := trace ++ [Sys.perror "Error setting variable screen info"]
        let vinfo := orig_vinfo
        let vinfo := { vinfo with
                       xres := target_width, yres := target_height,
                       xres_virtual := target_width, yres_virtual := target_height }
        let trace := trace ++ [Sys.ioctl_put_vscreeninfo vinfo]
        match env.put_v_second vinfo with
        | (ret2, vinfo) =>
          if ret2 ≠ 0 then
            { ret := some EXIT_FAILURE,
              trace := trace ++
                [Sys.perror "Error setting variable screen info with original settings",
                 Sys.close] }
          else
            main_map_and_draw env trace vinfo
      else
        main_map_and_draw env trace vinfo

/-! ## Vocabulary of the statements -/

/-- Whether the region reservation of `probe` succeeds from kernel state `k`. -/
def reservation_succeeds (env : ProbeEnv) (k : Kernel) : Bool :=
  env.request_ok && !k.res.mem_region

/-- The lengths carried by the region and mapping calls of a log. -/
def window_lengths : List KCall → List Nat
  | [] => []
  | KCall.request_mem_region _ n :: rest => n :: window_lengths rest
  | KCall.memremap _ n :: rest => n :: window_lengths rest
  | KCall.release_mem_region _ n :: rest => n :: window_lengths rest
  | _ :: rest => window_lengths rest

/-- The number of bytes `draw_colorbars` copies for each pixel. -/
def copy_length (vinfo : fb_var_screeninfo) : Nat :=
  to_size_t (bytesPerPixel vinfo)

/-- The pixel word `draw_colorbars` builds for column `x` (0 where the bar
index traps). -/
def pixel_word (width : Int) (vinfo : fb_var_screeninfo) (x : Int) : Nat :=
  ((bar_color width x).map fun color => pack_pixel color vinfo).getD 0

/-- Store number `j` of a run of `draw_colorbars` on a frame of the given
width: it belongs to iteration `j / copy_length`, that is, to column
`(j / copy_length) % width` of row `(j / copy_length) / width`, and carries
byte `j % copy_length` of that column's pixel word. -/
def frame_store (width : Nat) (vinfo : fb_var_screeninfo) (j : Nat) : Store :=
  (pixel_offset (width : Int) (bytesPerPixel vinfo)
      (((j / copy_length vinfo) % width : Nat) : Int)
      (((j / copy_length vinfo) / width : Nat) : Int)
    + ((j % copy_length vinfo : Nat) : Int),
   pixel_byte
    (pixel_word (width : Int) vinfo (((j / copy_length vinfo) % width : Nat) : Int))
    (j % copy_length vinfo))

/-- A 16385 x 8192 mode at 32 bits per pixel with the driver's layout:
`xres * yres * bits_per_pixel` is `2^32 + 262144`. -/
def vinfo_16385_by_8192 : fb_var_screeninfo :=
  { rcar_mem_fb_var with xres := 16385, yres := 8192, bits_per_pixel := 32 }

/-- The driver's layout at one byte per pixel. -/
def vinfo_one_byte : fb_var_screeninfo :=
  { rcar_mem_fb_var with bits_per_pixel := 8 }

/-- The value held by a channel's bit field in a pixel word. -/
def channel (field : fb_bitfield) (pixel : Nat) : Nat :=
  (pixel >>> field.offset) % 2 ^ field.length

/-- The `(r, g, b)` values that the pixel word of colour `color` holds in the
red, green and blue bit fields of the driver's layout. -/
def driver_rgb (color : Nat) : Nat × Nat × Nat :=
  (channel rcar_mem_fb_var.red (pack_pixel color rcar_mem_fb_var),
    channel rcar_mem_fb_var.green (pack_pixel color rcar_mem_fb_var),
    channel rcar_mem_fb_var.blue (pack_pixel color rcar_mem_fb_var))

/-- The requests of the mode-set ioctls in a trace, in order. -/
def put_requests : List Sys → List fb_var_screeninfo
  | [] => []
  | Sys.ioctl_put_vscreeninfo request :: rest => request :: put_requests rest
  | _ :: rest => put_requests rest

/-- The request `main` passes to the mode-set ioctl: the screen info read from
the device with the target geometry. -/
def mode_request (env : MainEnv) : fb_var_screeninfo :=
  { env.get_v_out with xres := 480, yres := 272, xres_virtual := 480, yres_virtual := 272 }

/-- Whether the first mode-set ioctl succeeds. -/
def first_mode_set_ok (env : MainEnv) : Bool :=
  decide ((env.put_v_first (mode_request env)).1 = 0)

/-- Whether the second mode-set ioctl succeeds (it is issued only after the
first has failed). -/
def second_mode_set_ok (env : MainEnv) : Bool :=
  decide ((env.put_v_second (mode_request env)).1 = 0)

/-- The screen info left in `vinfo` by the mode-set ioctl that counts: the
first, or the second when the first failed. -/
def vinfo_after_mode_set (env : MainEnv) : fb_var_screeninfo :=
  if first_mode_set_ok env then (env.put_v_first (mode_request env)).2
  else (env.put_v_second (mode_request env)).2

/-- Every step of `main` succeeds: the open, the two get ioctls, one of the
mode-set ioctls, and the mmap. -/
def all_steps_succeed (env : MainEnv) : Bool :=
  decide (env.open_ret ≠ -1) && decide (env.get_v_ret = 0) && decide (env.get_f_ret = 0) &&
    (first_mode_set_ok env || second_mode_set_ok env) &&
    env.mmap_ok (screensize (vinfo_after_mode_set env))

/-- The calls of `main` up to the mode-set ioctl that counts. -/
def calls_before_mmap (env : MainEnv) : List Sys :=
  if first_mode_set_ok env then
    [Sys.open_fb0, Sys.ioctl_get_vscreeninfo, Sys.ioctl_get_fscreeninfo,
     Sys.ioctl_put_vscreeninfo (mode_request env)]
  else
    [Sys.open_fb0, Sys.ioctl_get_vscreeninfo, Sys.ioctl_get_fscreeninfo,
     Sys.ioctl_put_vscreeninfo (mode_request env),
     Sys.perror "Error setting variable screen info",
     Sys.ioctl_put_vscreeninfo (mode_request env)]

/-- The call `draw_colorbars(fbp, vinfo.xres, vinfo.yres, &vinfo)` of `main`
divides by a zero `bar_width`: the loops are entered (width and height, as
`int`, are positive) and the width is below 7. -/
def divides_by_zero (vinfo : fb_var_screeninfo) : Prop :=
  1 ≤ to_int vinfo.xres ∧ to_int vinfo.xres ≤ 6 ∧ 1 ≤ to_int vinfo.yres

instance (vinfo : fb_var_screeninfo) : Decidable (divides_by_zero vinfo) := by
  unfold divides_by_zero
  infer_instance

/-- A device on which every call succeeds and the mode-set reports a mode
three pixels wide and one high. -/
def env_three_columns : MainEnv :=
  { open_ret := 3,
    get_v_ret := 0,
    get_v_out := rcar_mem_fb_var,
    get_f_ret := 0,
    put_v_first := fun v => (0, { v with xres := 3, yres := 1 }),
    put_v_second := fun v => (0, v),
    mmap_ok := fun _ => true }

/-- The rcar-mem-fb device: the mode-set ioctl succeeds exactly when
`rcar_mem_fb_check_var` accepts the request and leaves the request as it is,
and up to `RCAR_MEM_FB_SIZE` bytes can be mapped. -/
def env_rcar_mem_fb : MainEnv :=
  { open_ret := 3,
    get_v_ret := 0,
    get_v_out := rcar_mem_fb_var,
    get_f_ret := 0,
    put_v_first := fun v => (if rcar_mem_fb_check_var v = 0 then 0 else -1, v),
    put_v_second := fun v => (if rcar_mem_fb_check_var v = 0 then 0 else -1, v),
    mmap_ok := fun n => decide (0 < n ∧ n ≤ RCAR_MEM_FB_SIZE) }

/-- A device on which every call succeeds and the mode-set reports a mode 7
wide and 1 high at 40 bits per pixel with a red offset of 32. -/
def env_five_byte_pixels : MainEnv :=
  { open_ret := 3,
    get_v_ret := 0,
    get_v_out := rcar_mem_fb_var,
    get_f_ret := 0,
    put_v_first := fun v =>
      (0, { v with xres := 7, yres := 1, bits_per_pixel := 40, red := ⟨32, 8, 0⟩ }),
    put_v_second := fun v => (0, v),
    mmap_ok := fun _ => true }

/-- A device at 16 bits per pixel whose first mode-set fails, leaving zeros in
the request, and whose second succeeds. -/
def env_first_mode_set_fails : MainEnv :=
  { open_ret := 3,
    get_v_ret := 0,
    get_v_out := { rcar_mem_fb_var with
                   xres := 800, yres := 600, xres_virtual := 800, yres_virtual := 600,
                   bits_per_pixel := 16,
                   red := ⟨11, 5, 0⟩, green := ⟨5, 6, 0⟩, blue := ⟨0, 5, 0⟩ },
    get_f_ret := 0,
    put_v_first := fun _ => (-1, fb_var_screeninfo.zero),
    put_v_second := fun v => (0, v),
    mmap_ok := fun _ => true }

/-! ## Properties of the driver -/

/-- C1: `rcar_mem_fb_check_var` returns 0 exactly for xres 480, yres 272 and
24 bits per pixel, returns `-EINVAL` (-22) for every other triple, and any
two screen infos that agree on these three members get the same result. -/
theorem rcar_mem_fb_check_var_accepts_only_480_272_24 (var : fb_var_screeninfo) :
    (rcar_mem_fb_check_var var = 0 ↔
      (var.xres = 480 ∧ var.yres = 272 ∧ var.bits_per_pixel = 24)) ∧
    (¬(var.xres = 480 ∧ var.yres = 272 ∧ var.bits_per_pixel = 24) →
      rcar_mem_fb_check_var var = -EINVAL ∧ rcar_mem_fb_check_var var = -22) ∧
    (∀ other : fb_var_screeninfo,
      other.xres = var.xres → other.yres = var.yres →
      other.bits_per_pixel = var.bits_per_pixel →
      rcar_mem_fb_check_var other = rcar_mem_fb_check_var var) := by
  refine ⟨?_, ?_, ?_⟩
  · unfold rcar_mem_fb_check_var RCAR_MEM_FB_WIDTH RCAR_MEM_FB_HEIGHT RCAR_MEM_FB_BPP EINVAL
    split_ifs with h
    · constructor
      · intro h0
        norm_num at h0
      · rintro ⟨hx, hy, hb⟩
        rcases h with h | h | h <;> contradiction
    · push_neg at h
      simp [h.1, h.2.1, h.2.2]
  · intro hne
    unfold rcar_mem_fb_check_var RCAR_MEM_FB_WIDTH RCAR_MEM_FB_HEIGHT RCAR_MEM_FB_BPP EINVAL
    split_ifs with h
    · exact ⟨rfl, rfl⟩
    · push_neg at h
      exact absurd h hne
  · intro other hx hy hb
    unfold rcar_mem_fb_check_var
    rw [hx, hy, hb]

/-- C4: `RCAR_MEM_FB_SIZE` is 391680 = 480 * 272 * 3 and no intermediate
product leaves the range of `int`.  Every run of `probe` calls
`request_mem_region` with this length; once the reservation and the allocation
have succeeded it calls `memremap` with it and stores it in `fix.smem_len`,
where it equals `fix.line_length` (1440) times `var.yres` (272); every failing
run that had reserved the region calls `release_mem_region` with it; and no
region or mapping call of a run carries another length. -/
theorem rcar_mem_fb_size_is_391680 (env : ProbeEnv) (res : Resources) :
    RCAR_MEM_FB_SIZE = 391680 ∧
    RCAR_MEM_FB_SIZE = 480 * 272 * 3 ∧
    ((RCAR_MEM_FB_WIDTH * RCAR_MEM_FB_HEIGHT * RCAR_MEM_FB_BPP : Nat) : Int) ≤ INT_MAX ∧
    KCall.request_mem_region RCAR_MEM_FB_START RCAR_MEM_FB_SIZE ∈
      (rcar_mem_fb_probe env ⟨res, []⟩).kernel.log ∧
    (reservation_succeeds env ⟨res, []⟩ = true → env.alloc_ok = true →
      KCall.memremap RCAR_MEM_FB_START RCAR_MEM_FB_SIZE ∈
        (rcar_mem_fb_probe env ⟨res, []⟩).kernel.log ∧
      ∃ info, (rcar_mem_fb_probe env ⟨res, []⟩).info = some info ∧
        info.fix.smem_start = RCAR_MEM_FB_START ∧
        info.fix.smem_len = RCAR_MEM_FB_SIZE ∧
        info.fix.line_length = 1440 ∧ info.var.yres = 272 ∧
        info.fix.smem_len = info.fix.line_length * info.var.yres) ∧
    (reservation_succeeds env ⟨res, []⟩ = true →
      (rcar_mem_fb_probe env ⟨res, []⟩).ret ≠ 0 →
      KCall.release_mem_region RCAR_MEM_FB_START RCAR_MEM_FB_SIZE ∈
        (rcar_mem_fb_probe env ⟨res, []⟩).kernel.log) ∧
    (∀ n ∈ window_lengths (rcar_mem_fb_probe env ⟨res, []⟩).kernel.log,
      n = RCAR_MEM_FB_SIZE) := by
  have hsize : RCAR_MEM_FB_SIZE = 391680 := by decide
  have hline : RCAR_MEM_FB_WIDTH * 3 = 1440 := by decide
  have hyres : RCAR_MEM_FB_HEIGHT = 272 := by decide
  refine ⟨hsize, by decide, by decide, ?_, ?_, ?_, ?_⟩
  · rcases env with ⟨a, b, c, d⟩
    rcases res with ⟨m, f, mp, rg⟩
    cases a <;> cases b <;> cases c <;> cases m <;> by_cases h : d < 0 <;>
      simp [rcar_mem_fb_probe, request_mem_region, framebuffer_alloc, memremap, memset_io,
        register_framebuffer, platform_set_drvdata, err_unmap, err_release_fb,
        err_release_mem_region, memunmap, framebuffer_release, release_mem_region, h]
  · rcases env with ⟨a, b, c, d⟩
    rcases res with ⟨m, f, mp, rg⟩
    cases a <;> cases b <;> cases c <;> cases m <;> by_cases h : d < 0 <;>
      simp [rcar_mem_fb_probe, request_mem_region, framebuffer_alloc, memremap, memset_io,
        register_framebuffer, platform_set_drvdata, err_unmap, err_release_fb,
        err_release_mem_region, memunmap, framebuffer_release, release_mem_region,
        reservation_succeeds, rcar_mem_fb_fix, rcar_mem_fb_var, hsize, hline, hyres, h]
  · rcases env with ⟨a, b, c, d⟩
    rcases res with ⟨m, f, mp, rg⟩
    cases a <;> cases b <;> cases c <;> cases m <;> by_cases h : d < 0 <;>
      simp [rcar_mem_fb_probe, request_mem_region, framebuffer_alloc, memremap, memset_io,
        register_framebuffer, platform_set_drvdata, err_unmap, err_release_fb,
        err_release_mem_region, memunmap, framebuffer_release, release_mem_region,
        reservation_succeeds, h]
  · rcases env with ⟨a, b, c, d⟩
    rcases res with ⟨m, f, mp, rg⟩
    cases a <;> cases b <;> cases c <;> cases m <;> by_cases h : d < 0 <;>
      simp [rcar_mem_fb_probe, request_mem_region, framebuffer_alloc, memremap, memset_io,
        register_framebuffer, platform_set_drvdata, err_unmap, err_release_fb,
        err_release_mem_region, memunmap, framebuffer_release, release_mem_region,
        window_lengths, h]

/-- A run of `probe` in which every step succeeds, from a kernel holding
nothing: the region is requested and mapped with length 391680, and the
`fb_info` holds `smem_len` 391680. -/
theorem rcar_mem_fb_size_is_391680_witness :
    reservation_succeeds ⟨true, true, true, 0⟩ ⟨⟨false, 0, 0, 0⟩, []⟩ = true ∧
    KCall.request_mem_region 0x58000000 391680 ∈
      (rcar_mem_fb_probe ⟨true, true, true, 0⟩ ⟨⟨false, 0, 0, 0⟩, []⟩).kernel.log ∧
    KCall.memremap 0x58000000 391680 ∈
      (rcar_mem_fb_probe ⟨true, true, true, 0⟩ ⟨⟨false, 0, 0, 0⟩, []⟩).kernel.log ∧
    ∃ info, (rcar_mem_fb_probe ⟨true, true, true, 0⟩ ⟨⟨false, 0, 0, 0⟩, []⟩).info = some info ∧
      info.fix.smem_len = 391680 :=
  ⟨by decide,
    (rcar_mem_fb_size_is_391680 ⟨true, true, true, 0⟩ ⟨false, 0, 0, 0⟩).2.2.2.1,
    ((rcar_mem_fb_size_is_391680 ⟨true, true, true, 0⟩ ⟨false, 0, 0, 0⟩).2.2.2.2.1
      (by decide) rfl).1,
    (((rcar_mem_fb_size_is_391680 ⟨true, true, true, 0⟩ ⟨false, 0, 0, 0⟩).2.2.2.2.1
      (by decide) rfl).2).imp fun _ h => ⟨h.1, h.2.2.1⟩⟩

/-- C5: `rcar_mem_fb_probe` returns 0 exactly when the reservation, the
allocation, the mapping and the registration all succeed.  Otherwise it
returns a negative code (`-EBUSY`, `-ENOMEM`, `-ENOMEM`, or the code of
`register_framebuffer`), makes no call of a later step, releases what it had
acquired in reverse order, and leaves the resources as they were. -/
theorem rcar_mem_fb_probe_unwinds (env : ProbeEnv) (k : Kernel) :
    ((rcar_mem_fb_probe env k).ret = 0 ↔
      (reservation_succeeds env k = true ∧ env.alloc_ok = true ∧ env.remap_ok = true ∧
        ¬ env.register_ret < 0)) ∧
    ((rcar_mem_fb_probe env k).ret ≠ 0 →
      (rcar_mem_fb_probe env k).ret < 0 ∧ (rcar_mem_fb_probe env k).kernel.res = k.res) ∧
    (reservation_succeeds env k = false →
      (rcar_mem_fb_probe env k).ret = -EBUSY ∧
      (rcar_mem_fb_probe env k).kernel.log = k.log ++
        [KCall.request_mem_region RCAR_MEM_FB_START RCAR_MEM_FB_SIZE]) ∧
    (reservation_succeeds env k = true → env.alloc_ok = false →
      (rcar_mem_fb_probe env k).ret = -ENOMEM ∧
      (rcar_mem_fb_probe env k).kernel.log = k.log ++
        [KCall.request_mem_region RCAR_MEM_FB_START RCAR_MEM_FB_SIZE,
         KCall.framebuffer_alloc 0,
         KCall.release_mem_region RCAR_MEM_FB_START RCAR_MEM_FB_SIZE]) ∧
    (reservation_succeeds env k = true → env.alloc_ok = true → env.remap_ok = false →
      (rcar_mem_fb_probe env k).ret = -ENOMEM ∧
      (rcar_mem_fb_probe env k).kernel.log = k.log ++
        [KCall.request_mem_region RCAR_MEM_FB_START RCAR_MEM_FB_SIZE,
         KCall.framebuffer_alloc 0,
         KCall.memremap RCAR_MEM_FB_START RCAR_MEM_FB_SIZE,
         KCall.framebuffer_release,
         KCall.release_mem_region RCAR_MEM_FB_START RCAR_MEM_FB_SIZE]) ∧
    (reservation_succeeds env k = true → env.alloc_ok = true → env.remap_ok = true →
      env.register_ret < 0 →
      (rcar_mem_fb_probe env k).ret = env.register_ret ∧
      (rcar_mem_fb_probe env k).kernel.log = k.log ++
        [KCall.request_mem_region RCAR_MEM_FB_START RCAR_MEM_FB_SIZE,
         KCall.framebuffer_alloc 0,
         KCall.memremap RCAR_MEM_FB_START RCAR_MEM_FB_SIZE,
         KCall.memset_io 0 RCAR_MEM_FB_SIZE,
         KCall.register_framebuffer,
         KCall.memunmap,
         KCall.framebuffer_release,
         KCall.release_mem_region RCAR_MEM_FB_START RCAR_MEM_FB_SIZE]) ∧
    (reservation_succeeds env k = true → env.alloc_ok = true → env.remap_ok = true →
      ¬ env.register_ret < 0 →
      (rcar_mem_fb_probe env k).kernel.log = k.log ++
        [KCall.request_mem_region RCAR_MEM_FB_START RCAR_MEM_FB_SIZE,
         KCall.framebuffer_alloc 0,
         KCall.memremap RCAR_MEM_FB_START RCAR_MEM_FB_SIZE,
         KCall.memset_io 0 RCAR_MEM_FB_SIZE,
         KCall.register_framebuffer,
         KCall.platform_set_drvdata] ∧
      (rcar_mem_fb_probe env k).kernel.res =
        { mem_region := true, fb_infos := k.res.fb_infos + 1,
          mappings := k.res.mappings + 1, registered := k.res.registered + 1 }) := by
  rcases env with ⟨a, b, c, d⟩
  rcases k with ⟨⟨m, f, mp, rg⟩, log⟩
  cases a <;> cases b <;> cases c <;> cases m <;> by_cases h : d < 0 <;>
    simp [rcar_mem_fb_probe, request_mem_region, framebuffer_alloc, memremap, memset_io,
      register_framebuffer, platform_set_drvdata, err_unmap, err_release_fb,
      err_release_mem_region, memunmap, framebuffer_release, release_mem_region,
      reservation_succeeds, rcar_mem_fb_fix, EBUSY, ENOMEM, h] <;>
    omega

/-- C10: from a kernel holding nothing, a successful `rcar_mem_fb_probe`
followed by `rcar_mem_fb_remove` leaves the memory region reserved: `remove`
calls `unregister_framebuffer`, `iounmap` and `framebuffer_release` only, so
the resources differ from those before `probe` and a second `probe` returns
`-EBUSY`. -/
theorem rcar_mem_fb_remove_keeps_region_reserved (undoes : Bool) :
    (rcar_mem_fb_probe ⟨true, true, true, 0⟩ ⟨⟨false, 0, 0, 0⟩, []⟩).ret = 0 ∧
    (rcar_mem_fb_remove undoes ⟨(rcar_mem_fb_probe ⟨true, true, true, 0⟩
        ⟨⟨false, 0, 0, 0⟩, []⟩).kernel.res, []⟩).1 = 0 ∧
    (rcar_mem_fb_remove undoes ⟨(rcar_mem_fb_probe ⟨true, true, true, 0⟩
        ⟨⟨false, 0, 0, 0⟩, []⟩).kernel.res, []⟩).2.log =
      [KCall.platform_get_drvdata, KCall.unregister_framebuffer, KCall.iounmap,
       KCall.framebuffer_release] ∧
    (rcar_mem_fb_remove undoes ⟨(rcar_mem_fb_probe ⟨true, true, true, 0⟩
        ⟨⟨false, 0, 0, 0⟩, []⟩).kernel.res, []⟩).2.res.mem_region = true ∧
    (rcar_mem_fb_remove undoes ⟨(rcar_mem_fb_probe ⟨true, true, true, 0⟩
        ⟨⟨false, 0, 0, 0⟩, []⟩).kernel.res, []⟩).2.res ≠ ⟨false, 0, 0, 0⟩ ∧
    (rcar_mem_fb_probe ⟨true, true, true, 0⟩
      (rcar_mem_fb_remove undoes ⟨(rcar_mem_fb_probe ⟨true, true, true, 0⟩
        ⟨⟨false, 0, 0, 0⟩, []⟩).kernel.res, []⟩).2).ret = -EBUSY := by
  cases undoes <;> decide


/-! ## Properties of the test program -/

theorem num_bars_eq : NUM_BARS = 7 := rfl

theorem to_size_t_of_nonneg {v : Int} (h0 : 0 ≤ v) (h1 : v ≤ INT_MAX) :
    to_size_t v = v.toNat := by
  unfold to_size_t
  unfold INT_MAX at h1
  rw [Int.emod_eq_of_lt h0 (by omega)]

theorem to_int_of_lt {n : Nat} (h : n < 2 ^ 31) : to_int n = (n : Int) := by
  unfold to_int
  split_ifs with h1 <;> omega

theorem to_int_range (n : Nat) : INT_MIN ≤ to_int n ∧ to_int n ≤ INT_MAX := by
  unfold to_int INT_MIN INT_MAX
  split_ifs with h1 <;> omega

theorem wrap_int_of_range {v : Int} (h0 : INT_MIN ≤ v) (h1 : v ≤ INT_MAX) :
    wrap_int v = v := by
  unfold wrap_int
  unfold INT_MIN at h0
  unfold INT_MAX at h1
  omega

/-- For a width of at least 7 the `bar_width` of `draw_colorbars` is `width / 7`. -/
theorem bar_width_eq {width : Int} (hw : 7 ≤ width) (hmax : width ≤ INT_MAX) :
    to_int (to_size_t width / NUM_BARS) = width / 7 := by
  rw [to_size_t_of_nonneg (by omega) hmax, num_bars_eq]
  unfold INT_MAX at hmax
  rw [to_int_of_lt (by omega)]
  omega

theorem bar_index_eq {width x : Int} (hw : 7 ≤ width) (hmax : width ≤ INT_MAX)
    (hx0 : 0 ≤ x) (hx : x < width) :
    bar_index width x = some (min (x / (width / 7)) 6) := by
  have hpos : 0 < width / 7 := by omega
  have hq0 : 0 ≤ x / (width / 7) := Int.ediv_nonneg hx0 hpos.le
  have hqx : x / (width / 7) ≤ x := Int.ediv_le_self _ hx0
  have hqmax : x / (width / 7) ≤ INT_MAX := by omega
  unfold bar_index
  simp only [bar_width_eq hw hmax]
  rw [if_neg (ne_of_gt hpos), Int.tdiv_eq_ediv hx0 hpos.le,
    wrap_int_of_range (by unfold INT_MIN; omega) hqmax]
  simp only [to_size_t_of_nonneg hq0 hqmax, num_bars_eq]
  by_cases h7 : 7 ≤ x / (width / 7)
  · have h7n : 7 ≤ (x / (width / 7)).toNat := by omega
    rw [if_pos h7n, to_int_of_lt (by norm_num)]
    have : min (x / (width / 7)) 6 = 6 := min_eq_right (by omega)
    rw [this]
    rfl
  · have h7n : ¬ 7 ≤ (x / (width / 7)).toNat := by omega
    rw [if_neg h7n]
    by_cases h6 : x / (width / 7) ≤ 6
    · rw [min_eq_left h6]
    · have : x / (width / 7) = 6 := by omega
      rw [this]
      rfl

theorem band_index_lt {width x : Int} (hw : 7 ≤ width) (hx0 : 0 ≤ x) :
    (min (x / (width / 7)) 6).toNat < colors.length := by
  have hpos : 0 < width / 7 := by omega
  have hq0 : 0 ≤ x / (width / 7) := Int.ediv_nonneg hx0 hpos.le
  have h6 : min (x / (width / 7)) 6 ≤ 6 := min_le_right _ _
  have h0 : 0 ≤ min (x / (width / 7)) 6 := le_min hq0 (by norm_num)
  have : colors.length = 7 := rfl
  omega

theorem bar_color_eq {width x : Int} (hw : 7 ≤ width) (hmax : width ≤ INT_MAX)
    (hx0 : 0 ≤ x) (hx : x < width) :
    bar_color width x = colors[(min (x / (width / 7)) 6).toNat]? := by
  have hpos : 0 < width / 7 := by omega
  have hq0 : 0 ≤ x / (width / 7) := Int.ediv_nonneg hx0 hpos.le
  unfold bar_color
  rw [bar_index_eq hw hmax hx0 hx]
  simp only []
  rw [if_pos (le_min hq0 (by norm_num))]

theorem bar_color_defined {width x : Int} (hw : 7 ≤ width) (hmax : width ≤ INT_MAX)
    (hx0 : 0 ≤ x) (hx : x < width) :
    ∃ color, bar_color width x = some color ∧
      colors[(min (x / (width / 7)) 6).toNat]? = some color := by
  have hlt := band_index_lt hw hx0
  exact ⟨colors[(min (x / (width / 7)) 6).toNat],
    by rw [bar_color_eq hw hmax hx0 hx, List.getElem?_eq_getElem hlt],
    List.getElem?_eq_getElem hlt⟩

theorem for_loop_blocks (body : Int → Option (List Store)) (g : Nat → Store) (s L : Nat) :
    ∀ n : Nat, (∀ i < n, body (i : Int) = some ((List.range' (s + i * L) L).map g)) →
      for_loop body n = some ((List.range' s (n * L)).map g) := by
  intro n
  induction n with
  | zero => intro _; simp [for_loop]
  | succ n ih =>
    intro hbody
    have hprev := ih fun i hi => hbody i (Nat.lt_succ_of_lt hi)
    have hnow := hbody n (Nat.lt_succ_self n)
    unfold for_loop
    rw [hprev, hnow]
    simp only []
    rw [← List.map_append, List.range'_append_1, Nat.succ_mul, Nat.add_comm L (n * L)]

theorem for_loop_trap (body : Int → Option (List Store)) :
    ∀ n i : Nat, i < n → body (i : Int) = none → for_loop body n = none := by
  intro n
  induction n with
  | zero => intro i hi; exact absurd hi (Nat.not_lt_zero i)
  | succ n ih =>
    intro i hi hnone
    unfold for_loop
    rcases Nat.lt_succ_iff_lt_or_eq.1 hi with hlt | heq
    · rw [ih i hlt hnone]
    · subst heq
      cases for_loop body i with
      | none => rfl
      | some before => simp only [hnone]

/-- The stores of one iteration of the inner loop. -/
theorem draw_pixel_eq (w : Nat) (vinfo : fb_var_screeninfo) (hw : 7 ≤ w)
    (hwmax : (w : Int) ≤ INT_MAX) (x y : Nat) (hx : x < w) :
    draw_pixel (w : Int) vinfo (y : Int) (x : Int) =
      some ((List.range' (y * (w * copy_length vinfo) + x * copy_length vinfo)
        (copy_length vinfo)).map (frame_store w vinfo)) := by
  obtain ⟨c, hc, _⟩ := @bar_color_defined (w : Int) (x : Int)
    (by omega) hwmax (by omega) (by omega)
  have hpw : pixel_word (w : Int) vinfo (x : Int) = pack_pixel c vinfo := by
    simp [pixel_word, hc]
  unfold draw_pixel
  simp only [hc]
  unfold memcpy_pixel
  change some ((List.range (copy_length vinfo)).map _) = _
  rw [List.range'_eq_map_range, List.map_map]
  refine congrArg some (List.map_congr_left ?_)
  intro i hi
  have hiB : i < copy_length vinfo := List.mem_range.1 hi
  have hpos : 0 < copy_length vinfo := by omega
  have hwpos : 0 < w := by omega
  have hsum : y * (w * copy_length vinfo) + x * copy_length vinfo + i =
      i + copy_length vinfo * (y * w + x) := by ring
  have hdiv : (y * (w * copy_length vinfo) + x * copy_length vinfo + i) /
      copy_length vinfo = y * w + x := by
    rw [hsum, Nat.add_mul_div_left _ _ hpos, Nat.div_eq_of_lt hiB, Nat.zero_add]
  have hmod : (y * (w * copy_length vinfo) + x * copy_length vinfo + i) %
      copy_length vinfo = i := by
    rw [hsum, Nat.add_mul_mod_self_left, Nat.mod_eq_of_lt hiB]
  have hcol : (y * w + x) % w = x := by
    rw [Nat.add_comm, Nat.add_mul_mod_self_right, Nat.mod_eq_of_lt hx]
  have hrow : (y * w + x) / w = y := by
    rw [Nat.add_comm, Nat.mul_comm, Nat.add_mul_div_left _ _ hwpos, Nat.div_eq_of_lt hx,
      Nat.zero_add]
  simp only [Function.comp, frame_store, hdiv, hmod, hcol, hrow, hpw]

/-- The stores of `draw_colorbars` in closed form, for a width of at least 7. -/
theorem draw_colorbars_eq (w : Nat) (height : Int) (vinfo : fb_var_screeninfo) (hw : 7 ≤ w)
    (hwmax : (w : Int) ≤ INT_MAX) :
    draw_colorbars (w : Int) height vinfo =
      some ((List.range (height.toNat * (w * copy_length vinfo))).map
        (frame_store w vinfo)) := by
  unfold draw_colorbars
  rw [Int.toNat_ofNat, List.range_eq_range']
  apply for_loop_blocks _ (frame_store w vinfo) 0 (w * copy_length vinfo) height.toNat
  intro y _
  rw [Nat.zero_add]
  apply for_loop_blocks _ (frame_store w vinfo) (y * (w * copy_length vinfo))
    (copy_length vinfo) w
  intro x hx
  exact draw_pixel_eq w vinfo hw hwmax x y hx

/-- Store number `(y * w + x) * copy_length + i` of the closed form is byte `i`
of pixel `(x, y)`. -/
theorem frame_store_pixel (w : Nat) (vinfo : fb_var_screeninfo) (x y i : Nat) (hx : x < w)
    (hi : i < copy_length vinfo) :
    frame_store w vinfo ((y * w + x) * copy_length vinfo + i) =
      (pixel_offset (w : Int) (bytesPerPixel vinfo) (x : Int) (y : Int) + (i : Int),
        pixel_byte (pixel_word (w : Int) vinfo (x : Int)) i) := by
  have hpos : 0 < copy_length vinfo := by omega
  have hwpos : 0 < w := by omega
  have hdiv : ((y * w + x) * copy_length vinfo + i) / copy_length vinfo = y * w + x := by
    rw [Nat.add_comm, Nat.mul_comm, Nat.add_mul_div_left _ _ hpos, Nat.div_eq_of_lt hi,
      Nat.zero_add]
  have hmod : ((y * w + x) * copy_length vinfo + i) % copy_length vinfo = i := by
    rw [Nat.add_comm, Nat.mul_comm, Nat.add_mul_mod_self_left, Nat.mod_eq_of_lt hi]
  have hcol : (y * w + x) % w = x := by
    rw [Nat.add_comm, Nat.add_mul_mod_self_right, Nat.mod_eq_of_lt hx]
  have hrow : (y * w + x) / w = y := by
    rw [Nat.add_comm, Nat.mul_comm, Nat.add_mul_div_left _ _ hwpos, Nat.div_eq_of_lt hx,
      Nat.zero_add]
  simp only [frame_store, hdiv, hmod, hcol, hrow]

theorem store_index_lt (w h B x y i : Nat) (hx : x < w) (hy : y < h) (hi : i < B) :
    (y * w + x) * B + i < h * (w * B) := by
  have h1 : y * w + x + 1 ≤ h * w := by
    have : (y + 1) * w ≤ h * w := Nat.mul_le_mul_right w hy
    linarith [Nat.succ_mul y w]
  have h2 : (y * w + x + 1) * B ≤ h * w * B := Nat.mul_le_mul_right _ h1
  have h3 : (y * w + x + 1) * B = (y * w + x) * B + B := by ring
  have h4 : h * w * B = h * (w * B) := by ring
  omega

/-- C2: for a width of at least 7 the bar width is `width / 7`, never zero, and
`draw_colorbars` returns; the stores of its iteration for pixel `(x, y)` are
the bytes of the pixel word of `colors[min (x / (width / 7)) 6]`, whatever the
row `y`.  The index is below 7, bands 0 to 5 are the column ranges
`[k * bw, (k + 1) * bw)` and band 6 is `[6 * bw, width)`, which holds the
`width % 7` remaining columns as well. -/
theorem draw_colorbars_bands (width height : Int) (vinfo : fb_var_screeninfo)
    (hw : 7 ≤ width) (hmax : width ≤ INT_MAX) :
    to_int (to_size_t width / NUM_BARS) = width / 7 ∧
    width / 7 ≠ 0 ∧
    width - 6 * (width / 7) = width / 7 + width % 7 ∧
    (∀ x : Int, 0 ≤ x → x < width →
      bar_index width x = some (min (x / (width / 7)) 6) ∧
      0 ≤ min (x / (width / 7)) 6 ∧ min (x / (width / 7)) 6 < 7 ∧
      bar_color width x = colors[(min (x / (width / 7)) 6).toNat]? ∧
      (∀ k : Int, 0 ≤ k → k < 6 →
        (bar_index width x = some k ↔ k * (width / 7) ≤ x ∧ x < (k + 1) * (width / 7))) ∧
      (bar_index width x = some 6 ↔ 6 * (width / 7) ≤ x ∧ x < width)) ∧
    ∃ stores, draw_colorbars width height vinfo = some stores ∧
      stores.length = height.toNat * (width.toNat * copy_length vinfo) ∧
      ∀ x y : Int, 0 ≤ x → x < width → 0 ≤ y → y < height →
        ∃ color, colors[(min (x / (width / 7)) 6).toNat]? = some color ∧
          ∀ i : Nat, i < copy_length vinfo →
            stores[((y * width + x) * (copy_length vinfo : Int) + (i : Int)).toNat]? =
              some (pixel_offset width (bytesPerPixel vinfo) x y + (i : Int),
                pixel_byte (pack_pixel color vinfo) i) := by
  have hpos : 0 < width / 7 := by omega
  refine ⟨bar_width_eq hw hmax, ne_of_gt hpos, by omega, ?_, ?_⟩
  · intro x hx0 hx
    have hq0 : 0 ≤ x / (width / 7) := Int.ediv_nonneg hx0 hpos.le
    have hidx := bar_index_eq hw hmax hx0 hx
    refine ⟨hidx, le_min hq0 (by norm_num),
      lt_of_le_of_lt (min_le_right _ _) (by norm_num), bar_color_eq hw hmax hx0 hx, ?_, ?_⟩
    · intro k hk0 hk6
      rw [hidx, Option.some_inj]
      constructor
      · intro hmin
        have hq : x / (width / 7) = k := by
          rcases min_choice (x / (width / 7)) 6 with h | h <;> omega
        have h1 : k ≤ x / (width / 7) := by omega
        have h2 : x / (width / 7) < k + 1 := by omega
        exact ⟨(Int.le_ediv_iff_mul_le hpos).1 h1, (Int.ediv_lt_iff_lt_mul hpos).1 h2⟩
      · rintro ⟨h1, h2⟩
        have h1' := (Int.le_ediv_iff_mul_le hpos).2 h1
        have h2' := (Int.ediv_lt_iff_lt_mul hpos).2 h2
        rw [min_eq_left (by omega)]
        omega
    · rw [hidx, Option.some_inj]
      constructor
      · intro hmin
        have h6 : 6 ≤ x / (width / 7) := by
          rcases min_choice (x / (width / 7)) 6 with h | h
          · rw [h] at hmin; omega
          · have := min_le_left (x / (width / 7)) 6
            omega
        exact ⟨(Int.le_ediv_iff_mul_le hpos).1 h6, hx⟩
      · rintro ⟨h1, _⟩
        exact min_eq_right ((Int.le_ediv_iff_mul_le hpos).2 h1)
  · obtain ⟨w, rfl⟩ := Int.eq_ofNat_of_zero_le (by omega : 0 ≤ width)
    refine ⟨_, draw_colorbars_eq w height vinfo (by omega) hmax, ?_, ?_⟩
    · rw [List.length_map, List.length_range, Int.toNat_ofNat]
    · intro x y hx0 hx hy0 hy
      obtain ⟨xn, rfl⟩ := Int.eq_ofNat_of_zero_le hx0
      obtain ⟨yn, rfl⟩ := Int.eq_ofNat_of_zero_le hy0
      have hxn : xn < w := by omega
      have hyn : yn < height.toNat := by omega
      obtain ⟨c, hc, hband⟩ := @bar_color_defined (w : Int) (xn : Int) hw hmax hx0 hx
      have hpw : pixel_word (w : Int) vinfo (xn : Int) = pack_pixel c vinfo := by
        simp [pixel_word, hc]
      refine ⟨c, hband, ?_⟩
      intro i hi
      have hidx : ((yn : Int) * (w : Int) + (xn : Int)) * (copy_length vinfo : Int) + (i : Int) =
          (((yn * w + xn) * copy_length vinfo + i : Nat) : Int) := by
        push_cast
        ring
      rw [hidx, Int.toNat_ofNat, List.getElem?_map,
        List.getElem?_range (store_index_lt w height.toNat _ xn yn i hxn hyn hi),
        Option.map_some', frame_store_pixel w vinfo xn yn i hxn hi, hpw]

/-- Width 480 and height 272 with the driver's layout: the bar width is 68,
column 407 is the last of band 5, band 6 runs over the 72 columns from 408 to
479, and `draw_colorbars` makes 391680 stores.  On a frame 7 wide and 1 high
it stores the three bytes of each of the seven pixel words in turn. -/
theorem draw_colorbars_bands_witness :
    (7 : Int) ≤ 480 ∧ (480 : Int) ≤ INT_MAX ∧
    to_int (to_size_t 480 / NUM_BARS) = 68 ∧
    bar_index 480 407 = some 5 ∧
    bar_index 480 408 = some 6 ∧
    (480 : Int) - 6 * 68 = 72 ∧
    draw_colorbars 7 1 rcar_mem_fb_var =
      some [(0, some 255), (1, some 0), (2, some 0), (3, some 0), (4, some 255), (5, some 0),
        (6, some 0), (7, some 0), (8, some 255), (9, some 0), (10, some 255), (11, some 255),
        (12, some 255), (13, some 0), (14, some 255), (15, some 255), (16, some 255),
        (17, some 0), (18, some 255), (19, some 255), (20, some 255)] ∧
    ∃ stores, draw_colorbars 480 272 rcar_mem_fb_var = some stores ∧
      stores.length = 391680 :=
  ⟨by decide, by decide,
    (draw_colorbars_bands 480 272 rcar_mem_fb_var (by decide) (by decide)).1,
    ((draw_colorbars_bands 480 272 rcar_mem_fb_var (by decide) (by decide)).2.2.2.1
      407 (by decide) (by decide)).1,
    ((draw_colorbars_bands 480 272 rcar_mem_fb_var (by decide) (by decide)).2.2.2.1
      408 (by decide) (by decide)).1,
    by decide, by decide,
    (draw_colorbars_bands 480 272 rcar_mem_fb_var (by decide) (by decide)).2.2.2.2.imp
      fun _ h => ⟨h.1, h.2.1⟩⟩

theorem or_mod_two_pow (a b n : Nat) : (a ||| b) % 2 ^ n = a % 2 ^ n ||| b % 2 ^ n := by
  apply Nat.eq_of_testBit_eq
  intro i
  simp only [Nat.testBit_mod_two_pow, Nat.testBit_or]
  by_cases h : i < n <;> simp [h]

theorem low_byte_of_word (c : Nat) : c &&& 0xFF = c % 256 :=
  Nat.and_pow_two_sub_one_eq_mod _ 8

theorem shl32_of_lt (v n : Nat) (h : n < 32) : shl32 v n = (v <<< n) % 2 ^ 32 := by
  unfold shl32
  rw [Nat.mod_eq_of_lt h]

/-- The pixel word of `draw_colorbars` when the three colour offsets are below
32. -/
theorem pack_pixel_rgb (c : Nat) (vinfo : fb_var_screeninfo)
    (hr : vinfo.red.offset < 32) (hg : vinfo.green.offset < 32) (hb : vinfo.blue.offset < 32) :
    pack_pixel c vinfo =
      if vinfo.transp.length > 0 then
        ((c / 2 ^ 16 % 256) <<< vinfo.red.offset ||| (c / 2 ^ 8 % 256) <<< vinfo.green.offset
            ||| (c % 256) <<< vinfo.blue.offset) % 2 ^ 32 |||
          shl32 (c / 2 ^ 24 % 256) vinfo.transp.offset
      else
        ((c / 2 ^ 16 % 256) <<< vinfo.red.offset
          ||| (c / 2 ^ 8 % 256) <<< vinfo.green.offset
          ||| (c % 256) <<< vinfo.blue.offset) % 2 ^ 32 := by
  unfold pack_pixel
  simp only [shl32_of_lt _ _ hr, shl32_of_lt _ _ hg, shl32_of_lt _ _ hb, low_byte_of_word,
    Nat.shiftRight_eq_div_pow, Nat.zero_or, or_mod_two_pow]

/-- C3: with the four channel offsets below 32, the pixel word is
`(r << red.offset) | (g << green.offset) | (b << blue.offset)` modulo `2^32`,
where `r`, `g`, `b` are bits 16..23, 8..15 and 0..7 of the colour; the alpha
byte (bits 24..31), shifted by `transp.offset`, is OR-ed in exactly when
`transp.length > 0`, and with `transp.length = 0` two colours that differ only
in their alpha byte give the same pixel word. -/
theorem pack_pixel_places_channels (c : Nat) (vinfo : fb_var_screeninfo)
    (hr : vinfo.red.offset < 32) (hg : vinfo.green.offset < 32)
    (hb : vinfo.blue.offset < 32) (ht : vinfo.transp.offset < 32) :
    (vinfo.transp.length > 0 →
      pack_pixel c vinfo =
        ((c / 2 ^ 16 % 256) <<< vinfo.red.offset ||| (c / 2 ^ 8 % 256) <<< vinfo.green.offset
          ||| (c % 256) <<< vinfo.blue.offset
          ||| (c / 2 ^ 24 % 256) <<< vinfo.transp.offset) % 2 ^ 32) ∧
    (vinfo.transp.length = 0 →
      pack_pixel c vinfo =
        ((c / 2 ^ 16 % 256) <<< vinfo.red.offset ||| (c / 2 ^ 8 % 256) <<< vinfo.green.offset
          ||| (c % 256) <<< vinfo.blue.offset) % 2 ^ 32 ∧
      ∀ c' : Nat, c' % 2 ^ 24 = c % 2 ^ 24 → pack_pixel c' vinfo = pack_pixel c vinfo) := by
  constructor
  · intro hlen
    rw [pack_pixel_rgb c vinfo hr hg hb, if_pos hlen, shl32_of_lt _ _ ht,
      or_mod_two_pow _ ((c / 2 ^ 24 % 256) <<< vinfo.transp.offset)]
  · intro hlen
    have hnot : ¬ vinfo.transp.length > 0 := by omega
    refine ⟨by rw [pack_pixel_rgb c vinfo hr hg hb, if_neg hnot], ?_⟩
    intro c' hc
    rw [pack_pixel_rgb c vinfo hr hg hb, pack_pixel_rgb c' vinfo hr hg hb, if_neg hnot,
      if_neg hnot]
    have h16 : c' / 2 ^ 16 % 256 = c / 2 ^ 16 % 256 := by omega
    have h8 : c' / 2 ^ 8 % 256 = c / 2 ^ 8 % 256 := by omega
    have h0 : c' % 256 = c % 256 := by omega
    rw [h16, h8, h0]

/-- The driver's layout and the first colour of the table with its alpha byte
changed. -/
theorem pack_pixel_places_channels_witness :
    rcar_mem_fb_var.red.offset < 32 ∧ rcar_mem_fb_var.green.offset < 32 ∧
    rcar_mem_fb_var.blue.offset < 32 ∧ rcar_mem_fb_var.transp.offset < 32 ∧
    rcar_mem_fb_var.transp.length = 0 ∧
    pack_pixel 0x000000FF rcar_mem_fb_var = pack_pixel 0xFF0000FF rcar_mem_fb_var :=
  ⟨by decide, by decide, by decide, by decide, by decide,
    ((pack_pixel_places_channels 0xFF0000FF rcar_mem_fb_var (by decide) (by decide)
      (by decide) (by decide)).2 (by decide)).2 0x000000FF (by decide)⟩

theorem bytesPerPixel_eq (vinfo : fb_var_screeninfo) (hB4 : vinfo.bits_per_pixel / 8 ≤ 4) :
    bytesPerPixel vinfo = ((vinfo.bits_per_pixel / 8 : Nat) : Int) :=
  to_int_of_lt (by omega)

theorem copy_length_eq (vinfo : fb_var_screeninfo) (hB4 : vinfo.bits_per_pixel / 8 ≤ 4) :
    copy_length vinfo = vinfo.bits_per_pixel / 8 := by
  unfold copy_length
  rw [bytesPerPixel_eq vinfo hB4, to_size_t_of_nonneg (by omega) (by unfold INT_MAX; omega)]
  exact Int.toNat_ofNat _

/-- Without overflow the `int` offset of pixel `(x, y)` is
`(x + y * width) * bytesPerPixel`. -/
theorem pixel_offset_eq (w h B x y : Nat) (hB1 : 1 ≤ B) (hx : x < w) (hy : y < h)
    (hov : (w * h - 1) * B ≤ 2 ^ 31 - 1) :
    pixel_offset (w : Int) (B : Int) (x : Int) (y : Int) = (((y * w + x) * B : Nat) : Int) := by
  have h1 : y * w + x ≤ w * h - 1 := by
    have : (y + 1) * w ≤ h * w := Nat.mul_le_mul_right w hy
    have hc : h * w = w * h := Nat.mul_comm h w
    have : y * w + w ≤ w * h := by rw [← hc]; linarith [Nat.succ_mul y w]
    omega
  have h2 : (y * w + x) * B ≤ 2 ^ 31 - 1 := le_trans (Nat.mul_le_mul_right B h1) hov
  have h3 : y * w + x ≤ (y * w + x) * B := Nat.le_mul_of_pos_right _ hB1
  have h4 : y * w ≤ y * w + x := Nat.le_add_right _ _
  unfold pixel_offset
  have e1 : (y : Int) * (w : Int) = ((y * w : Nat) : Int) := by push_cast; ring
  have e2 : (x : Int) + ((y * w : Nat) : Int) = ((y * w + x : Nat) : Int) := by push_cast; ring
  have e3 : ((y * w + x : Nat) : Int) * (B : Int) = (((y * w + x) * B : Nat) : Int) := by
    push_cast; ring
  have w1 : wrap_int ((y * w : Nat) : Int) = ((y * w : Nat) : Int) :=
    wrap_int_of_range (by unfold INT_MIN; omega) (by unfold INT_MAX; omega)
  have w2 : wrap_int ((y * w + x : Nat) : Int) = ((y * w + x : Nat) : Int) :=
    wrap_int_of_range (by unfold INT_MIN; omega) (by unfold INT_MAX; omega)
  have w3 : wrap_int (((y * w + x) * B : Nat) : Int) = (((y * w + x) * B : Nat) : Int) :=
    wrap_int_of_range (by unfold INT_MIN; omega) (by unfold INT_MAX; omega)
  rw [e1, w1, e2, w2, e3, w3]

/-- Without overflow store number `j` goes to offset `j`. -/
theorem frame_store_offset (w h : Nat) (vinfo : fb_var_screeninfo)
    (hB1 : 1 ≤ vinfo.bits_per_pixel / 8) (hB4 : vinfo.bits_per_pixel / 8 ≤ 4)
    (hov : (w * h - 1) * (vinfo.bits_per_pixel / 8) ≤ 2 ^ 31 - 1)
    (j : Nat) (hj : j < h * (w * (vinfo.bits_per_pixel / 8))) :
    (frame_store w vinfo j).1 = (j : Int) := by
  have hpos : 0 < vinfo.bits_per_pixel / 8 := hB1
  have hwpos : 0 < w := by
    rcases Nat.eq_zero_or_pos w with h0 | h0
    · rw [h0] at hj; simp at hj
    · exact h0
  have hq : j / (vinfo.bits_per_pixel / 8) < h * w := by
    rw [Nat.div_lt_iff_lt_mul hpos]
    calc j < h * (w * (vinfo.bits_per_pixel / 8)) := hj
      _ = h * w * (vinfo.bits_per_pixel / 8) := by ring
  have hy : j / (vinfo.bits_per_pixel / 8) / w < h := by
    rw [Nat.div_lt_iff_lt_mul hwpos]
    exact hq
  have hx : j / (vinfo.bits_per_pixel / 8) % w < w := Nat.mod_lt _ hwpos
  have hoff := pixel_offset_eq w h (vinfo.bits_per_pixel / 8)
    (j / (vinfo.bits_per_pixel / 8) % w) (j / (vinfo.bits_per_pixel / 8) / w) hB1 hx hy hov
  have e1 : j / (vinfo.bits_per_pixel / 8) / w * w + j / (vinfo.bits_per_pixel / 8) % w =
      j / (vinfo.bits_per_pixel / 8) := Nat.div_add_mod' _ _
  have e2 : j / (vinfo.bits_per_pixel / 8) * (vinfo.bits_per_pixel / 8) +
      j % (vinfo.bits_per_pixel / 8) = j := Nat.div_add_mod' _ _
  simp only [frame_store, copy_length_eq vinfo hB4, bytesPerPixel_eq vinfo hB4, hoff, e1]
  exact_mod_cast e2

theorem screensize_eq (vinfo : fb_var_screeninfo)
    (hnowrap : vinfo.xres * vinfo.yres * vinfo.bits_per_pixel < 2 ^ 32)
    (hbpp : 1 ≤ vinfo.bits_per_pixel) :
    screensize vinfo = vinfo.xres * vinfo.yres * vinfo.bits_per_pixel / 8 := by
  have h1 : vinfo.xres * vinfo.yres ≤ vinfo.xres * vinfo.yres * vinfo.bits_per_pixel :=
    Nat.le_mul_of_pos_right _ hbpp
  unfold screensize
  rw [Nat.mod_eq_of_lt (lt_of_le_of_lt h1 hnowrap), Nat.mod_eq_of_lt hnowrap]

theorem frame_le_bits_div (n bpp : Nat) : n * (bpp / 8) ≤ n * bpp / 8 := by
  rw [Nat.le_div_iff_mul_le (by norm_num)]
  calc n * (bpp / 8) * 8 = n * (bpp / 8 * 8) := by ring
    _ ≤ n * bpp := Nat.mul_le_mul_left n (Nat.div_mul_le_self bpp 8)

/-- C8 (amended): for a width of at least 7, a height of at least 1, one to
four bytes per pixel and offsets that fit an `int`, `draw_colorbars` returns;
the offsets it stores to are `0, 1, ..., width * height * bytesPerPixel - 1`,
each once, and byte `i` of pixel `(x, y)`, at offset
`(x + y * width) * bytesPerPixel + i`, is byte `i` of the pixel word of column
`x` counted from the low-order end.  When the arguments are the `xres` and
`yres` of the screen info and `xres * yres * bits_per_pixel` does not wrap,
all stores lie below `screensize`, which is
`xres * yres * bits_per_pixel / 8`. -/
theorem draw_colorbars_fills_frame (width height : Int) (vinfo : fb_var_screeninfo)
    (hw : 7 ≤ width) (hwmax : width ≤ INT_MAX) (hh : 1 ≤ height) (hhmax : height ≤ INT_MAX)
    (hB1 : 1 ≤ vinfo.bits_per_pixel / 8) (hB4 : vinfo.bits_per_pixel / 8 ≤ 4)
    (hov : (width * height - 1) * ((vinfo.bits_per_pixel / 8 : Nat) : Int) ≤ INT_MAX) :
    ∃ stores, draw_colorbars width height vinfo = some stores ∧
      stores.map Prod.fst =
        (List.range (width * height * ((vinfo.bits_per_pixel / 8 : Nat) : Int)).toNat).map
          Nat.cast ∧
      (∀ x y : Int, 0 ≤ x → x < width → 0 ≤ y → y < height →
        (bar_color width x).map (fun color => pack_pixel color vinfo) =
          some (pixel_word width vinfo x) ∧
        ∀ i : Nat, i < vinfo.bits_per_pixel / 8 →
          stores[((x + y * width) * ((vinfo.bits_per_pixel / 8 : Nat) : Int) + (i : Int)).toNat]? =
            some ((x + y * width) * ((vinfo.bits_per_pixel / 8 : Nat) : Int) + (i : Int),
              some ((pixel_word width vinfo x >>> (8 * i)) &&& 0xFF))) ∧
      ((vinfo.xres : Int) = width → (vinfo.yres : Int) = height →
        vinfo.xres * vinfo.yres * vinfo.bits_per_pixel < 2 ^ 32 →
        to_int vinfo.xres = width ∧ to_int vinfo.yres = height ∧
        screensize vinfo = vinfo.xres * vinfo.yres * vinfo.bits_per_pixel / 8 ∧
        vinfo.xres * vinfo.yres * (vinfo.bits_per_pixel / 8) ≤ screensize vinfo ∧
        ∀ s ∈ stores, 0 ≤ s.1 ∧ s.1 < (screensize vinfo : Int)) := by
  obtain ⟨w, rfl⟩ := Int.eq_ofNat_of_zero_le (by omega : 0 ≤ width)
  obtain ⟨h, rfl⟩ := Int.eq_ofNat_of_zero_le (by omega : 0 ≤ height)
  have hw' : 7 ≤ w := by omega
  have hh' : 1 ≤ h := by omega
  have hwh : 1 ≤ w * h := Nat.mul_pos (by omega) hh'
  have hov' : (w * h - 1) * (vinfo.bits_per_pixel / 8) ≤ 2 ^ 31 - 1 := by
    have e : (((w * h - 1) * (vinfo.bits_per_pixel / 8) : Nat) : Int) =
        ((w : Int) * (h : Int) - 1) * ((vinfo.bits_per_pixel / 8 : Nat) : Int) := by
      rw [Nat.cast_mul, Nat.cast_sub hwh]
      push_cast
      ring
    unfold INT_MAX at hov
    rw [← e] at hov
    omega
  have hcl := copy_length_eq vinfo hB4
  have hdraw := draw_colorbars_eq w (h : Int) vinfo hw' hwmax
  rw [Int.toNat_ofNat, hcl] at hdraw
  have hlen : ((w : Int) * (h : Int) * ((vinfo.bits_per_pixel / 8 : Nat) : Int)).toNat =
      h * (w * (vinfo.bits_per_pixel / 8)) := by
    have e : (w : Int) * (h : Int) * ((vinfo.bits_per_pixel / 8 : Nat) : Int) =
        ((h * (w * (vinfo.bits_per_pixel / 8)) : Nat) : Int) := by
      push_cast
      ring
    rw [e, Int.toNat_ofNat]
  refine ⟨_, hdraw, ?_, ?_, ?_⟩
  · rw [hlen, List.map_map]
    refine List.map_congr_left fun j hj => ?_
    rw [Function.comp_apply]
    exact frame_store_offset w h vinfo hB1 hB4 hov' j (List.mem_range.1 hj)
  · intro x y hx0 hx hy0 hy
    obtain ⟨xn, rfl⟩ := Int.eq_ofNat_of_zero_le hx0
    obtain ⟨yn, rfl⟩ := Int.eq_ofNat_of_zero_le hy0
    have hxn : xn < w := by omega
    have hyn : yn < h := by omega
    obtain ⟨c, hc, _⟩ := @bar_color_defined (w : Int) (xn : Int) hw hwmax hx0 hx
    have hpw : pixel_word (w : Int) vinfo (xn : Int) = pack_pixel c vinfo := by
      simp [pixel_word, hc]
    refine ⟨by rw [hpw, hc]; rfl, ?_⟩
    intro i hi
    have hi4 : i < 4 := by omega
    have hidx : ((xn : Int) + (yn : Int) * (w : Int)) *
        ((vinfo.bits_per_pixel / 8 : Nat) : Int) + (i : Int) =
        (((yn * w + xn) * (vinfo.bits_per_pixel / 8) + i : Nat) : Int) := by
      push_cast
      ring
    have hbound := store_index_lt w h (vinfo.bits_per_pixel / 8) xn yn i hxn hyn hi
    have hfs := frame_store_pixel w vinfo xn yn i hxn (by rw [hcl]; exact hi)
    rw [hcl, bytesPerPixel_eq vinfo hB4,
      pixel_offset_eq w h (vinfo.bits_per_pixel / 8) xn yn hB1 hxn hyn hov'] at hfs
    rw [hidx, Int.toNat_ofNat, List.getElem?_map, List.getElem?_range hbound,
      Option.map_some', hfs]
    simp only [pixel_byte, if_pos hi4]
    congr 2
  · intro hxres hyres hnowrap
    have hxw : vinfo.xres = w := by exact_mod_cast hxres
    have hyh : vinfo.yres = h := by exact_mod_cast hyres
    have hbpp : 8 ≤ vinfo.bits_per_pixel := by omega
    have hss := screensize_eq vinfo hnowrap (by omega)
    have hfr := frame_le_bits_div (vinfo.xres * vinfo.yres) vinfo.bits_per_pixel
    unfold INT_MAX at hwmax hhmax
    refine ⟨?_, ?_, hss, by rw [hss]; exact hfr, ?_⟩
    · rw [hxw, to_int_of_lt (by omega)]
    · rw [hyh, to_int_of_lt (by omega)]
    · intro s hs
      obtain ⟨j, hj, rfl⟩ := List.mem_map.1 hs
      have hjlt : j < h * (w * (vinfo.bits_per_pixel / 8)) := List.mem_range.1 hj
      have e : h * (w * (vinfo.bits_per_pixel / 8)) =
          vinfo.xres * vinfo.yres * (vinfo.bits_per_pixel / 8) := by
        rw [hxw, hyh]
        ring
      have hle : vinfo.xres * vinfo.yres * (vinfo.bits_per_pixel / 8) ≤ screensize vinfo := by
        rw [hss]
        exact hfr
      rw [frame_store_offset w h vinfo hB1 hB4 hov' j hjlt]
      omega

/-- The driver's mode, 480 x 272 at 24 bits per pixel: 391680 stores, all
inside the mapping. -/
theorem draw_colorbars_fills_frame_witness :
    (7 : Int) ≤ 480 ∧ (480 : Int) ≤ INT_MAX ∧ (1 : Int) ≤ 272 ∧ (272 : Int) ≤ INT_MAX ∧
    1 ≤ rcar_mem_fb_var.bits_per_pixel / 8 ∧ rcar_mem_fb_var.bits_per_pixel / 8 ≤ 4 ∧
    ((480 : Int) * 272 - 1) * ((rcar_mem_fb_var.bits_per_pixel / 8 : Nat) : Int) ≤ INT_MAX ∧
    ∃ stores, draw_colorbars 480 272 rcar_mem_fb_var = some stores ∧
      stores.map Prod.fst = (List.range 391680).map Nat.cast ∧
      ∀ s ∈ stores, 0 ≤ s.1 ∧ s.1 < (screensize rcar_mem_fb_var : Int) := by
  refine ⟨by decide, by decide, by decide, by decide, by decide, by decide, by decide, ?_⟩
  obtain ⟨stores, h1, h2, _, h4⟩ :=
    draw_colorbars_fills_frame 480 272 rcar_mem_fb_var (by decide) (by decide) (by decide)
      (by decide) (by decide) (by decide) (by decide)
  exact ⟨stores, h1, h2, (h4 rfl rfl (by decide)).2.2.2.2⟩

/-- C8 as stated fails.  In a frame 65536 wide and 32769 high at one byte per
pixel, the `int` offset of pixel `(0, 32768)` wraps: `draw_colorbars` stores
its byte, store number 2147483648 of the run, at offset -2147483648 and not at
`(0 + 32768 * 65536) * 1`.  For a 16385 x 8192 mode at 32 bits per pixel
`screensize` wraps to 32768, far less than the frame. -/
theorem draw_colorbars_fills_frame_counterexample :
    ((7 : Int) ≤ 65536 ∧ (1 : Int) ≤ 32769 ∧
      1 ≤ vinfo_one_byte.bits_per_pixel / 8 ∧ vinfo_one_byte.bits_per_pixel / 8 ≤ 4 ∧
      pixel_offset 65536 (bytesPerPixel vinfo_one_byte) 0 32768 = -2147483648 ∧
      ((0 : Int) + 32768 * 65536) * 1 = 2147483648 ∧
      ∃ stores, draw_colorbars 65536 32769 vinfo_one_byte = some stores ∧
        stores[2147483648]? = some (-2147483648, some 255)) ∧
    (1 ≤ vinfo_16385_by_8192.bits_per_pixel / 8 ∧ vinfo_16385_by_8192.bits_per_pixel / 8 ≤ 4 ∧
      screensize vinfo_16385_by_8192 = 32768 ∧
      screensize vinfo_16385_by_8192 <
        vinfo_16385_by_8192.xres * vinfo_16385_by_8192.yres *
          (vinfo_16385_by_8192.bits_per_pixel / 8)) := by
  refine ⟨⟨by decide, by decide, by decide, by decide, by decide, by decide, ?_⟩,
    ⟨by decide, by decide, by decide, by decide⟩⟩
  have hdraw := draw_colorbars_eq 65536 32769 vinfo_one_byte (by decide) (by decide)
  refine ⟨_, hdraw, ?_⟩
  have hlt : 2147483648 < (32769 : Int).toNat * (65536 * copy_length vinfo_one_byte) := by
    decide
  rw [List.getElem?_map, List.getElem?_range hlt, Option.map_some']
  decide

/-- C9: under the driver's layout the bands named Red and Blue in the colour
table come out swapped.  The pixel words of the seven table entries hold, in
the red, green and blue fields, (0,0,255) for the entry named Red and
(255,0,0) for the entry named Blue; the other five hold the values of their
names.  Band 0 (column 0 of a 480-wide frame) uses the first entry and band 2
(column 136) the third. -/
theorem colorbars_red_and_blue_swapped :
    colors.map driver_rgb =
      [ (0, 0, 255),       -- named Red
        (0, 255, 0),       -- named Green
        (255, 0, 0),       -- named Blue
        (255, 255, 0),     -- named Yellow
        (255, 0, 255),     -- named Magenta
        (0, 255, 255),     -- named Cyan
        (255, 255, 255) ]  -- named White
    ∧ bar_color 480 0 = some 0xFF0000FF
    ∧ (bar_color 480 0).map driver_rgb = some (0, 0, 255)
    ∧ bar_color 480 136 = some 0xFFFF0000
    ∧ (bar_color 480 136).map driver_rgb = some (255, 0, 0) := by
  refine ⟨by decide, by decide, by decide, by decide, by decide⟩

theorem put_requests_append (a b : List Sys) :
    put_requests (a ++ b) = put_requests a ++ put_requests b := by
  induction a with
  | nil => rfl
  | cons c rest ih => cases c <;> simp [put_requests, ih]

theorem main_map_and_draw_put_requests (env : MainEnv) (trace : List Sys)
    (vinfo : fb_var_screeninfo) :
    put_requests (main_map_and_draw env trace vinfo).trace = put_requests trace := by
  unfold main_map_and_draw
  simp only []
  split_ifs
  · simp [put_requests_append, put_requests]
  · split <;> simp [put_requests_append, put_requests]

/-- With a width from 1 to 6 and a height of at least 1 the first iteration of
`draw_colorbars` divides by zero. -/
theorem draw_colorbars_traps (width height : Int) (vinfo : fb_var_screeninfo)
    (hw1 : 1 ≤ width) (hw6 : width ≤ 6) (hh : 1 ≤ height) :
    draw_colorbars width height vinfo = none := by
  have hbw : to_int (to_size_t width / NUM_BARS) = 0 := by
    rw [to_size_t_of_nonneg (by omega) (by unfold INT_MAX; omega), num_bars_eq]
    have : width.toNat / 7 = 0 := by omega
    rw [this]
    rfl
  have hpix : draw_pixel width vinfo ((0 : Nat) : Int) ((0 : Nat) : Int) = none := by
    unfold draw_pixel bar_color bar_index
    simp only [hbw, if_true]
  unfold draw_colorbars
  apply for_loop_trap _ height.toNat 0 (by omega)
  exact for_loop_trap _ width.toNat 0 (by omega) hpix

/-- Outside that case `draw_colorbars` returns. -/
theorem draw_colorbars_returns (width height : Int) (vinfo : fb_var_screeninfo)
    (hmax : width ≤ INT_MAX) (h : ¬ (1 ≤ width ∧ width ≤ 6 ∧ 1 ≤ height)) :
    ∃ stores, draw_colorbars width height vinfo = some stores := by
  by_cases hw : 7 ≤ width
  · obtain ⟨w, rfl⟩ := Int.eq_ofNat_of_zero_le (by omega : 0 ≤ width)
    exact ⟨_, draw_colorbars_eq w height vinfo (by omega) hmax⟩
  · by_cases hh : 1 ≤ height
    · have hw0 : width.toNat = 0 := by omega
      refine ⟨(List.range' 0 (height.toNat * 0)).map (frame_store 0 vinfo), ?_⟩
      unfold draw_colorbars
      rw [hw0]
      apply for_loop_blocks _ (frame_store 0 vinfo) 0 0 height.toNat
      intro y _
      rfl
    · have hh0 : height.toNat = 0 := by omega
      refine ⟨[], ?_⟩
      unfold draw_colorbars
      rw [hh0]
      rfl

theorem main_map_and_draw_spec (env : MainEnv) (trace : List Sys) (vinfo : fb_var_screeninfo) :
    (env.mmap_ok (screensize vinfo) = false →
      main_map_and_draw env trace vinfo =
        { ret := some EXIT_FAILURE,
          trace := trace ++ [Sys.mmap (screensize vinfo),
            Sys.perror "Error mapping framebuffer to memory", Sys.close] }) ∧
    (env.mmap_ok (screensize vinfo) = true → ¬ divides_by_zero vinfo →
      main_map_and_draw env trace vinfo =
        { ret := some EXIT_SUCCESS,
          trace := trace ++ [Sys.mmap (screensize vinfo), Sys.getchar,
            Sys.munmap (screensize vinfo), Sys.close] }) ∧
    (env.mmap_ok (screensize vinfo) = true → divides_by_zero vinfo →
      main_map_and_draw env trace vinfo =
        { ret := none, trace := trace ++ [Sys.mmap (screensize vinfo)] }) := by
  refine ⟨?_, ?_, ?_⟩
  · intro hm
    unfold main_map_and_draw
    simp [hm]
  · intro hm hnot
    obtain ⟨stores, hd⟩ := draw_colorbars_returns (to_int vinfo.xres) (to_int vinfo.yres)
      vinfo (to_int_range vinfo.xres).2 hnot
    unfold main_map_and_draw
    simp only [hm, hd, Bool.not_true, Bool.false_eq_true, if_false]
  · rintro hm ⟨h1, h6, hh⟩
    have hd := draw_colorbars_traps (to_int vinfo.xres) (to_int vinfo.yres) vinfo h1 h6 hh
    unfold main_map_and_draw
    simp only [hm, hd, Bool.not_true, Bool.false_eq_true, if_false]

/-- The run of `main` once the open and the two get ioctls have succeeded. -/
theorem main_of_reads_ok (env : MainEnv) (hopen : env.open_ret ≠ -1) (hv : env.get_v_ret = 0)
    (hf : env.get_f_ret = 0) :
    main env =
      if (env.put_v_first (mode_request env)).1 = 0 then
        main_map_and_draw env
          [Sys.open_fb0, Sys.ioctl_get_vscreeninfo, Sys.ioctl_get_fscreeninfo,
           Sys.ioctl_put_vscreeninfo (mode_request env)]
          (env.put_v_first (mode_request env)).2
      else if (env.put_v_second (mode_request env)).1 = 0 then
        main_map_and_draw env
          [Sys.open_fb0, Sys.ioctl_get_vscreeninfo, Sys.ioctl_get_fscreeninfo,
           Sys.ioctl_put_vscreeninfo (mode_request env),
           Sys.perror "Error setting variable screen info",
           Sys.ioctl_put_vscreeninfo (mode_request env)]
          (env.put_v_second (mode_request env)).2
      else
        { ret := some EXIT_FAILURE,
          trace :=
            [Sys.open_fb0, Sys.ioctl_get_vscreeninfo, Sys.ioctl_get_fscreeninfo,
             Sys.ioctl_put_vscreeninfo (mode_request env),
             Sys.perror "Error setting variable screen info",
             Sys.ioctl_put_vscreeninfo (mode_request env),
             Sys.perror "Error setting variable screen info with original settings",
             Sys.close] } := by
  unfold main mode_request
  simp only [if_neg hopen, hv, hf, ne_eq, not_true_eq_false, if_false]
  split_ifs <;> rfl

/-- C7: once the open and the two get ioctls have succeeded, a failing first
mode-set ioctl is followed by exactly one more, whose request is the screen
info read from the device with only `xres`, `yres`, `xres_virtual` and
`yres_virtual` replaced by 480, 272, 480, 272, whatever the first ioctl left
in the structure; a succeeding first mode-set ioctl is the only one. -/
theorem main_mode_set_retry (env : MainEnv) (hopen : env.open_ret ≠ -1)
    (hv : env.get_v_ret = 0) (hf : env.get_f_ret = 0) :
    mode_request env =
      { env.get_v_out with
        xres := 480, yres := 272, xres_virtual := 480, yres_virtual := 272 } ∧
    ((env.put_v_first (mode_request env)).1 ≠ 0 →
      put_requests (main env).trace =
        [ mode_request env,
          { env.get_v_out with
            xres := 480, yres := 272, xres_virtual := 480, yres_virtual := 272 } ]) ∧
    ((env.put_v_first (mode_request env)).1 = 0 →
      put_requests (main env).trace = [mode_request env]) ∧
    ({ env.get_v_out with
        xres := 480, yres := 272, xres_virtual := 480,
        yres_virtual := 272 } : fb_var_screeninfo).bits_per_pixel =
      env.get_v_out.bits_per_pixel := by
  refine ⟨rfl, ?_, ?_, rfl⟩
  · intro h1
    rw [main_of_reads_ok env hopen hv hf, if_neg h1]
    split_ifs
    · rw [main_map_and_draw_put_requests]
      rfl
    · rfl
  · intro h1
    rw [main_of_reads_ok env hopen hv hf, if_pos h1, main_map_and_draw_put_requests]
    rfl

/-- A device at 16 bits per pixel whose first mode-set fails and leaves zeros
in the request: both requests carry 16 bits per pixel. -/
theorem main_mode_set_retry_witness :
    env_first_mode_set_fails.open_ret ≠ -1 ∧ env_first_mode_set_fails.get_v_ret = 0 ∧
    env_first_mode_set_fails.get_f_ret = 0 ∧
    (env_first_mode_set_fails.put_v_first (mode_request env_first_mode_set_fails)).1 ≠ 0 ∧
    put_requests (main env_first_mode_set_fails).trace =
      [ mode_request env_first_mode_set_fails,
        { env_first_mode_set_fails.get_v_out with
          xres := 480, yres := 272, xres_virtual := 480, yres_virtual := 272 } ] ∧
    (mode_request env_first_mode_set_fails).bits_per_pixel = 16 :=
  ⟨by decide, by decide, by decide, by decide,
    (main_mode_set_retry env_first_mode_set_fails (by decide) (by decide) (by decide)).2.1
      (by decide),
    by decide⟩

/-- The run of `main` once the mode has been set. -/
theorem main_of_mode_set_ok (env : MainEnv) (hopen : env.open_ret ≠ -1)
    (hv : env.get_v_ret = 0) (hf : env.get_f_ret = 0)
    (hset : (first_mode_set_ok env || second_mode_set_ok env) = true) :
    main env = main_map_and_draw env (calls_before_mmap env) (vinfo_after_mode_set env) := by
  rw [main_of_reads_ok env hopen hv hf]
  unfold calls_before_mmap vinfo_after_mode_set
  by_cases h1 : (env.put_v_first (mode_request env)).1 = 0
  · have hb : first_mode_set_ok env = true := by simp [first_mode_set_ok, h1]
    rw [if_pos h1, if_pos hb, if_pos hb]
  · have hb : first_mode_set_ok env = false := by simp [first_mode_set_ok, h1]
    have h2 : (env.put_v_second (mode_request env)).1 = 0 := by
      simpa [hb, second_mode_set_ok] using hset
    simp [h1, h2, hb]

end RcarFb
